import Mathlib

/-!
Verification development for the EDL change-list generator
(`changelist.py`).  The program compares two CMX3600 edit decision
lists positionally and renders a tab-separated change list.

The Python source is shallowly embedded below:
* timecodes are `String`s; parsing returns `Option Int` (a `none`
  models the `ValueError` that Python's `int()` / tuple unpacking
  raises, which aborts the whole run);
* Python's floor division `//` and `%` on `int` are `Int.fdiv` /
  `Int.fmod`;
* files are modelled as the list of their lines (`readlines`), and the
  output file as the list of lines written to it;
* the heterogeneous `dict` used for change details is an association
  list from keys to an `Int`-or-`String` value, in insertion order.
-/

/-- `ChangeType` enumeration from the source. -/
inductive ChangeType where
  | UNCHANGED
  | CHANGED
  | NEW
  | DELETED
deriving DecidableEq, Repr

/-- A value stored in the `details` dict: the code stores either Python
ints or strings. -/
inductive DVal where
  | int (i : Int)
  | str (s : String)
deriving DecidableEq, Repr

/-- The `details` dict, in insertion order. -/
abbrev Details := List (String × DVal)

/-- The `Edit` dataclass: one parsed event line. -/
structure Edit where
  event_num : String
  reel : String
  source_in : String
  source_out : String
  record_in : String
  record_out : String
  clip_name : String
deriving DecidableEq, Repr

/-- One element of the list returned by `compare_edls`: the Python
tuple `(type, old_edit, new_edit, details)`. -/
structure Change where
  typ : ChangeType
  old_e : Option Edit
  new_e : Option Edit
  details : Details
deriving DecidableEq, Repr

/-- Fuel-bounded decimal digit expansion; structural recursion on the
fuel so that the kernel can evaluate it.  `n + 1` fuel always
suffices. -/
def natReprAux : Nat → Nat → List Char
  | 0, _ => []
  | fuel + 1, n =>
    if n < 10 then [Nat.digitChar n]
    else natReprAux fuel (n / 10) ++ [Nat.digitChar (n % 10)]

/-- Decimal digits of a natural number, most significant first; the
standard algorithm behind Python's `str`/`%d` formatting of a
non-negative int. -/
def natRepr (n : Nat) : List Char := natReprAux (n + 1) n

/-- Decimal representation of a Python int (`str(i)` / `%d`). -/
def intReprL (i : Int) : List Char :=
  if i < 0 then '-' :: natRepr (-i).toNat else natRepr i.toNat

/-- `f"{i}"` for a Python int, as a Lean string. -/
def intStr (i : Int) : String := ⟨intReprL i⟩

/-- `f"{i:02d}"`: zero-pad to width 2.  Only single-digit non-negative
values actually get a pad (Python pads `-5` to `"-5"`, already width 2). -/
def intPad2L (i : Int) : List Char :=
  if 0 ≤ i ∧ i < 10 then '0' :: intReprL i else intReprL i

/-- Value of a decimal digit character. -/
def charVal (c : Char) : Nat := c.toNat - 48

/-- Value of a list of decimal digit characters (most significant
first), as computed by Python's `int()` on a digit string. -/
def digitsToNat (l : List Char) : Nat :=
  l.foldl (fun a c => 10 * a + charVal c) 0

/-- Python `int(s)` on one timecode component: optional sign followed
by one or more decimal digits; anything else raises `ValueError`
(modelled as `none`). -/
def parseIntL (l : List Char) : Option Int :=
  if l = [] then none
  else if l.head! = '-' then
    (if l.tail ≠ [] ∧ l.tail.all Char.isDigit then
      some (-(digitsToNat l.tail : Int)) else none)
  else if l.head! = '+' then
    (if l.tail ≠ [] ∧ l.tail.all Char.isDigit then
      some ((digitsToNat l.tail : Int)) else none)
  else if l.all Char.isDigit then some ((digitsToNat l : Int)) else none

/-- Python `s.split(':')` on the character list of `s`. -/
def splitColon : List Char → List (List Char)
  | [] => [[]]
  | c :: rest =>
    if c = ':' then [] :: splitColon rest
    else
      match splitColon rest with
      | [] => [[]]
      | x :: xs => (c :: x) :: xs

/-- Run an option-valued function over a list, failing if any element
fails (Python's exception propagation out of a loop/`map`). -/
def traverseOption (f : α → Option β) : List α → Option (List β)
  | [] => some []
  | a :: l =>
    match f a with
    | none => none
    | some b =>
      match traverseOption f l with
      | none => none
      | some bs => some (b :: bs)

/-- `tc_to_frames` from the source: `h, m, s, f = map(int, tc.split(':'))`
(exactly four numeric components, else `ValueError`), then
`((h*60 + m)*60 + s)*fps + f`. -/
def tc_to_frames (tc : String) (fps : Int) : Option Int :=
  match traverseOption parseIntL (splitColon tc.data) with
  | some [h, m, s, f] => some (((h * 60 + m) * 60 + s) * fps + f)
  | _ => none

/-- `parse_tc` from the source (dead code in the pipeline): indexes
`parts[0..3]`, so extra components beyond four are ignored, and it
hard-codes 24 fps. -/
def parse_tc (tc : String) : Option Int :=
  match traverseOption parseIntL (splitColon tc.data) with
  | some (h :: m :: s :: f :: _) => some (((h * 60 + m) * 60 + s) * 24 + f)
  | _ => none

/-- Build `"HH:MM:SS:FF"` from four already-computed components with
`%02d` padding, as the f-string in `frames_to_tc` does. -/
def mkTC (h m s f : Int) : String :=
  ⟨intPad2L h ++ (':' :: (intPad2L m ++ (':' :: (intPad2L s ++ (':' :: intPad2L f)))))⟩

/-- `frames_to_tc` from the source, with Python's floor `//` and `%`. -/
def frames_to_tc (frames fps : Int) : String :=
  let r1 := frames.fmod (60 * 60 * fps)
  let r2 := r1.fmod (60 * fps)
  mkTC (frames.fdiv (60 * 60 * fps)) (r1.fdiv (60 * fps)) (r2.fdiv fps) (r2.fmod fps)

/-- `subtract_tc` from the source. -/
def subtract_tc (out_tc in_tc : String) (fps : Int) : Option String := do
  let a ← tc_to_frames out_tc fps
  let b ← tc_to_frames in_tc fps
  pure (frames_to_tc (a - b) fps)

/-- `Edit.key`: computed but never used for matching. -/
def Edit.key (e : Edit) : String × String × String :=
  (e.reel, e.source_in, e.source_out)

/-- `Edit.duration_tc` (uses the default 24 fps of `subtract_tc`). -/
def Edit.duration_tc (e : Edit) : Option String :=
  subtract_tc e.source_out e.source_in 24

/-- Python `line.strip()`: drop leading and trailing whitespace. -/
def pyStrip (s : String) : String :=
  ⟨((s.data.dropWhile Char.isWhitespace).reverse.dropWhile Char.isWhitespace).reverse⟩

/-- Python `line.split()`: split on runs of whitespace, dropping empty
tokens (accumulator holds the current token reversed). -/
def splitWSAux : List Char → List Char → List (List Char)
  | [], acc => if acc = [] then [] else [acc.reverse]
  | c :: rest, acc =>
    if c.isWhitespace then
      (if acc = [] then splitWSAux rest [] else acc.reverse :: splitWSAux rest [])
    else splitWSAux rest (c :: acc)

/-- The whitespace-separated fields of a line (`line.split()`). -/
def fields (s : String) : List String :=
  (splitWSAux s.data []).map (fun l => ⟨l⟩)

/-- `re.match(r'^\d{3,}', line)`: the line starts with at least three
decimal digits. -/
def startsWith3Digits (s : String) : Bool :=
  match s.data with
  | a :: b :: c :: _ => a.isDigit && b.isDigit && c.isDigit
  | _ => false

/-- The literal part of the clip-name pattern. -/
def clipMarker : List Char := "* FROM CLIP NAME: ".data

/-- `re.search(r'\* FROM CLIP NAME: (.+)', line)`: find the leftmost
occurrence of the marker followed by at least one character; the
(greedy) group is everything after the marker to the end of the line. -/
def findClip : List Char → Option (List Char)
  | [] => none
  | c :: rest =>
    if clipMarker.isPrefixOf (c :: rest) ∧ (c :: rest).drop clipMarker.length ≠ [] then
      some ((c :: rest).drop clipMarker.length)
    else findClip rest

/-- Clip name taken from line `j` of the file, if that line exists and
matches the clip-name pattern after stripping; `""` otherwise. -/
def clipNameAt (lines : List String) (j : Nat) : String :=
  match lines[j]? with
  | none => ""
  | some raw =>
    match findClip (pyStrip raw).data with
    | none => ""
    | some cs => ⟨cs⟩

/-- One iteration of the parser's scan at line index `i`: strip the
line; if it starts with three or more digits and has at least eight
whitespace-separated fields, build the `Edit` positionally (fields 2, 3
and any beyond 7 are ignored), looking ahead to line `i+1` for the clip
name. -/
def parseEventLine (lines : List String) (i : Nat) : Option Edit :=
  match lines[i]? with
  | none => none
  | some raw =>
    let line := (pyStrip raw)
    if startsWith3Digits line then
      let ps := fields line
      if 8 ≤ ps.length then
        some ⟨ps.getD 0 "", ps.getD 1 "", ps.getD 4 "", ps.getD 5 "",
              ps.getD 6 "", ps.getD 7 "", clipNameAt lines (i + 1)⟩
      else none
    else none

/-- `EDLParser.parse`: the `while` loop visits every line index in
order, appending at most one edit per index. -/
def parseEDL (lines : List String) : List Edit :=
  (List.range lines.length).filterMap (parseEventLine lines)

/-- The `EDLParser` class: stores the fps it was constructed with. -/
structure EDLParser where
  fps : Int

/-- The `parse` method; its body never reads `self.fps`. -/
def EDLParser.parse (_p : EDLParser) (lines : List String) : List Edit :=
  parseEDL lines

/-- `compute_trim_details` from the source: parse the four source and
four record timecodes (a malformed one raises, aborting the run), then
build the details dict in insertion order, conditionally appending the
head- and tail-change keys. -/
def compute_trim_details (old_edit new_edit : Edit) (fps : Int) : Option Details := do
  let old_src_in ← tc_to_frames old_edit.source_in fps
  let old_src_out ← tc_to_frames old_edit.source_out fps
  let new_src_in ← tc_to_frames new_edit.source_in fps
  let new_src_out ← tc_to_frames new_edit.source_out fps
  let old_rec_in ← tc_to_frames old_edit.record_in fps
  let old_rec_out ← tc_to_frames old_edit.record_out fps
  let new_rec_in ← tc_to_frames new_edit.record_in fps
  let new_rec_out ← tc_to_frames new_edit.record_out fps
  let old_length := old_rec_out - old_rec_in
  let new_length := new_rec_out - new_rec_in
  let time_diff := new_length - old_length
  let base : Details :=
    [("time_diff_frames", .int time_diff),
     ("old_length_frames", .int old_length),
     ("new_length_frames", .int new_length),
     ("old_source_in", .str old_edit.source_in),
     ("new_source_in", .str new_edit.source_in),
     ("old_source_out", .str old_edit.source_out),
     ("new_source_out", .str new_edit.source_out)]
  let head_diff := new_src_in - old_src_in
  let headPart : Details :=
    if head_diff < 0 then
      [("head_change", .str "extended"),
       ("head_from", .str old_edit.source_in),
       ("head_to", .str new_edit.source_in)]
    else if 0 < head_diff then
      [("head_change", .str "trimmed"),
       ("head_from", .str old_edit.source_in),
       ("head_to", .str new_edit.source_in)]
    else []
  let tail_diff := new_src_out - old_src_out
  let tailPart : Details :=
    if 0 < tail_diff then
      [("tail_change", .str "extended"),
       ("tail_from", .str old_edit.source_out),
       ("tail_to", .str new_edit.source_out)]
    else if tail_diff < 0 then
      [("tail_change", .str "trimmed"),
       ("tail_from", .str old_edit.source_out),
       ("tail_to", .str new_edit.source_out)]
    else []
  pure (base ++ headPart ++ tailPart)

/-- The per-index classification of `compare_edls`.  `none`/`none`
cannot arise for an index below `max` of the lengths; the Python code
would raise `AttributeError` there, which `none` models. -/
def classifyPair (fps : Int) (o n : Option Edit) : Option Change :=
  match o, n with
  | none, some new_edit =>
    some ⟨.NEW, none, some new_edit, [("description", .str "Clip added")]⟩
  | some old_edit, none =>
    some ⟨.DELETED, some old_edit, none, []⟩
  | some old_edit, some new_edit =>
    if old_edit.reel ≠ new_edit.reel then
      some ⟨.NEW, some old_edit, some new_edit, [("description", .str "Clip added")]⟩
    else if old_edit.source_in = new_edit.source_in ∧
            old_edit.source_out = new_edit.source_out then
      some ⟨.UNCHANGED, some old_edit, some new_edit, []⟩
    else
      (compute_trim_details old_edit new_edit fps).map
        (fun d => ⟨.CHANGED, some old_edit, some new_edit, d⟩)
  | none, none => none

/-- `compare_edls` from the source: one record per index up to the max
length, positional alignment, exceptions propagating out of the loop. -/
def compare_edls (old_edits new_edits : List Edit) (fps : Int) :
    Option (List Change) :=
  traverseOption
    (fun i => classifyPair fps old_edits[i]? new_edits[i]?)
    (List.range (max old_edits.length new_edits.length))

/-- `frames_to_description` from the source. -/
def frames_to_description (frames fps : Int) : String :=
  let seconds := frames.fdiv fps
  let remaining := frames.fmod fps
  if seconds = 0 then
    intStr remaining ++ " frame" ++ (if remaining ≠ 1 then "s" else "")
  else
    intStr seconds ++ " second" ++ (if seconds ≠ 1 then "s" else "") ++ " " ++
    intStr remaining ++ " frame" ++ (if remaining ≠ 1 then "s" else "")

/-- `details.get(key, default)` for an int-valued key. -/
def getIntD (d : Details) (k : String) (dflt : Int) : Int :=
  match d.lookup k with
  | some (.int i) => i
  | _ => dflt

/-- `details[key]` for a string-valued key (total model; the code only
reads keys it has put there). -/
def getStrD (d : Details) (k : String) : String :=
  match d.lookup k with
  | some (.str s) => s
  | _ => ""

/-- Fallback display edit; Python would raise `AttributeError` if both
edit references were `None`, which no `compare_edls` output contains. -/
def defaultEdit : Edit := ⟨"", "", "", "", "", "", ""⟩

/-- The line `output_change_list` writes for one change record (with
its trailing newline), or `none` when the record is skipped. -/
def renderRecord (fps : Int) (c : Change) : Option String :=
  match c.typ with
  | .UNCHANGED => none
  | .DELETED => none
  | .NEW =>
    let edit := match c.new_e with
      | some e => e
      | none => match c.old_e with
        | some e => e
        | none => defaultEdit
    some ("New\t" ++ edit.record_in ++ "\tTC\tmagenta\tClip added (" ++
          edit.clip_name ++ ")\t1\n")
  | .CHANGED =>
    let edit := match c.new_e with
      | some e => e
      | none => match c.old_e with
        | some e => e
        | none => defaultEdit
    let time_diff := getIntD c.details "time_diff_frames" 0
    let old_length := getIntD c.details "old_length_frames" 0
    let new_length := getIntD c.details "new_length_frames" 0
    let partA :=
      if time_diff = 0 then "No time difference. Shifted within itself. "
      else "Time difference " ++ intStr time_diff ++ " frames  [" ++
           intStr time_diff ++ " frames]."
    let partB :=
      if (c.details.lookup "head_change").isSome then
        " HEAD " ++
        (if c.details.lookup "head_change" = some (.str "extended")
         then "extended" else "trimmed") ++
        " from " ++ getStrD c.details "head_from" ++
        " to " ++ getStrD c.details "head_to" ++ "."
      else ""
    let partC :=
      if (c.details.lookup "tail_change").isSome then
        " TAIL " ++
        (if c.details.lookup "tail_change" = some (.str "extended")
         then "extended" else "trimmed") ++
        " from " ++ getStrD c.details "tail_from" ++
        " to " ++ getStrD c.details "tail_to" ++ "."
      else ""
    let partD :=
      if time_diff ≠ 0 then
        " Old length: " ++ frames_to_description old_length fps ++
        " [" ++ intStr old_length ++ " frames] - New length: " ++
        frames_to_description new_length fps ++
        " [" ++ intStr new_length ++ " frames]"
      else ""
    let description := partA ++ partB ++ partC ++ partD ++
      " (" ++ edit.clip_name ++ ")"
    some ("Changed\t" ++ edit.record_in ++ "\tTC\tyellow\t" ++
          description ++ "\t1\n")

/-- `output_change_list`: the lines written to the output file, in
order. -/
def output_change_list (changes : List Change) (fps : Int) : List String :=
  changes.filterMap (renderRecord fps)

/-- `s` starts with `p` (on the character lists). -/
def strStarts (s p : String) : Bool :=
  p.data.isPrefixOf s.data

/-- The data-model invariant on an `Edit`: all four timecode fields
parse (spec section 3). -/
def Edit.tcOK (e : Edit) (fps : Int) : Prop :=
  (tc_to_frames e.source_in fps).isSome = true ∧
  (tc_to_frames e.source_out fps).isSome = true ∧
  (tc_to_frames e.record_in fps).isSome = true ∧
  (tc_to_frames e.record_out fps).isSome = true

/-- A well-formed `HH:MM:SS:FF` timecode string in canonical (zero-
padded) form with minutes and seconds below 60 and frames below `fps`. -/
def isCanonTC (tc : String) (fps : Int) : Prop :=
  ∃ h m s f : Nat, m ≤ 59 ∧ s ≤ 59 ∧ (f : Int) < fps ∧
    tc = mkTC (h : Int) (m : Int) (s : Int) (f : Int)


/-- A line whose stripped form starts with only two digits. -/
def c3_badLine : String :=
  "12 A V C 00:00:01:00 00:00:02:00 01:00:00:00 01:00:01:00"

/-- A well-formed event line followed by a clip-name line. -/
def c3_goodLine : String :=
  "001  A001  V  C  01:00:00:00 01:00:01:00 01:00:00:00 01:00:01:00"

/-- Edits used by several witnesses: same reel, head-trimmed source-in,
records untouched. -/
def wOld : Edit :=
  ⟨"001", "A001", "01:00:00:00", "01:00:05:00", "02:00:00:00", "02:00:05:00", ""⟩

def wNew : Edit :=
  ⟨"001", "A001", "01:00:01:00", "01:00:05:00", "02:00:00:00", "02:00:05:00", ""⟩

/-- Old edit with a malformed source-in timecode. -/
def w7o : Edit :=
  ⟨"001", "A001", "xx:yy", "01:00:01:00", "01:00:00:00", "01:00:01:00", ""⟩

/-- New edit, same reel, different source-in. -/
def w7n : Edit :=
  ⟨"001", "A001", "01:00:00:00", "01:00:01:00", "01:00:00:00", "01:00:01:00", ""⟩

/-- The details `compare_edls` computes for `wOld` vs `wNew`. -/
def w8d : Details :=
  [("time_diff_frames", .int 0),
   ("old_length_frames", .int 120),
   ("new_length_frames", .int 120),
   ("old_source_in", .str "01:00:00:00"),
   ("new_source_in", .str "01:00:01:00"),
   ("old_source_out", .str "01:00:05:00"),
   ("new_source_out", .str "01:00:05:00"),
   ("head_change", .str "trimmed"),
   ("head_from", .str "01:00:00:00"),
   ("head_to", .str "01:00:01:00")]

/-- Example 2 of the spec: the old edit. -/
def c1_old : Edit :=
  ⟨"001", "A001", "01:00:00:00", "01:00:10:00", "01:00:00:00", "01:00:10:00", ""⟩

/-- Example 2 of the spec: the new edit (source-in moved two seconds
later; record times unchanged). -/
def c1_new : Edit :=
  ⟨"001", "A001", "01:00:02:00", "01:00:10:00", "01:00:00:00", "01:00:10:00", ""⟩

/-- The details the code computes for Example 2. -/
def c1_details : Details :=
  [("time_diff_frames", .int 0),
   ("old_length_frames", .int 240),
   ("new_length_frames", .int 240),
   ("old_source_in", .str "01:00:00:00"),
   ("new_source_in", .str "01:00:02:00"),
   ("old_source_out", .str "01:00:10:00"),
   ("new_source_out", .str "01:00:10:00"),
   ("head_change", .str "trimmed"),
   ("head_from", .str "01:00:00:00"),
   ("head_to", .str "01:00:02:00")]

/-- The single line the renderer writes for Example 2. -/
def c1_line : String :=
  "Changed\t01:00:00:00\tTC\tyellow\tNo time difference. Shifted within itself.  HEAD trimmed from 01:00:00:00 to 01:00:02:00. ()\t1\n"

/-! ## Infrastructure lemmas -/

theorem traverseOption_some {α β} (f : α → Option β) :
    ∀ (l : List α) (res : List β), traverseOption f l = some res →
      res.length = l.length ∧
      (∀ (i : Nat) (a : α), l[i]? = some a → res[i]? = f a) ∧
      (∀ a ∈ l, (f a).isSome = true) := by
  intro l
  induction l with
  | nil =>
    intro res h
    simp [traverseOption] at h
    subst h
    simp
  | cons a l ih =>
    intro res h
    unfold traverseOption at h
    cases hfa : f a with
    | none => rw [hfa] at h; simp at h
    | some b =>
      rw [hfa] at h
      cases ht : traverseOption f l with
      | none => rw [ht] at h; simp at h
      | some bs =>
        rw [ht] at h
        simp at h
        subst h
        obtain ⟨hlen, hidx, hall⟩ := ih bs ht
        refine ⟨by simp [hlen], ?_, ?_⟩
        · intro i x hx
          cases i with
          | zero => simp at hx; subst hx; simpa using hfa.symm
          | succ j =>
            simp only [List.getElem?_cons_succ] at hx ⊢
            exact hidx j x hx
        · intro x hx
          rcases List.mem_cons.mp hx with h1 | h2
          · subst h1; simp [hfa]
          · exact hall x h2

theorem traverseOption_isSome {α β} (f : α → Option β) :
    ∀ l : List α, (∀ a ∈ l, (f a).isSome = true) →
      (traverseOption f l).isSome = true := by
  intro l
  induction l with
  | nil => intro _; simp [traverseOption]
  | cons a l ih =>
    intro h
    have ha : (f a).isSome = true := h a (by simp)
    obtain ⟨b, hb⟩ := Option.isSome_iff_exists.mp ha
    have ht := ih (fun x hx => h x (by simp [hx]))
    obtain ⟨bs, hbs⟩ := Option.isSome_iff_exists.mp ht
    simp [traverseOption, hb, hbs]

theorem traverseOption_none {α β} (f : α → Option β) :
    ∀ (l : List α) (i : Nat) (a : α), l[i]? = some a → f a = none →
      traverseOption f l = none := by
  intro l
  induction l with
  | nil => intro i a h _; simp at h
  | cons x l ih =>
    intro i a h hfa
    cases i with
    | zero =>
      simp at h
      subst h
      simp [traverseOption, hfa]
    | succ j =>
      simp only [List.getElem?_cons_succ] at h
      unfold traverseOption
      cases hfx : f x with
      | none => rfl
      | some b => rw [ih j a h hfa]

/-! ## C10: the parser ignores the fps it was constructed with -/

/-- C10: The list of Edits returned by `EDLParser.parse` depends only on
the input file's lines, not on the fps the parser was constructed with:
two parsers with different fps values return identical edit lists.  The
method body never reads `self.fps`, so this holds definitionally. -/
theorem c10_parse_fps_independent (fps1 fps2 : Int) (lines : List String) :
    (EDLParser.mk fps1).parse lines = (EDLParser.mk fps2).parse lines := rfl

/-! ## C3: recognition and positional decoding of event lines -/

/-- C3 (amended): for every input line that, after stripping, starts
with THREE or more digits (the code's pattern is `^\d{3,}`, not "one or
more") and splits into at least 8 whitespace fields, the parser emits
the Edit built positionally from fields 0, 1, 4, 5, 6, 7 (fields 2, 3
and any beyond index 7 are ignored; the clip name comes from the next
line). -/
theorem c3_event_line_parsed (lines : List String) (i : Nat) (raw : String)
    (hi : lines[i]? = some raw)
    (hd : startsWith3Digits (pyStrip raw) = true)
    (hf : 8 ≤ (fields (pyStrip raw)).length) :
    parseEventLine lines i =
      some ⟨(fields (pyStrip raw)).getD 0 "", (fields (pyStrip raw)).getD 1 "",
            (fields (pyStrip raw)).getD 4 "", (fields (pyStrip raw)).getD 5 "",
            (fields (pyStrip raw)).getD 6 "", (fields (pyStrip raw)).getD 7 "",
            clipNameAt lines (i + 1)⟩ ∧
    (∀ e, parseEventLine lines i = some e → e ∈ parseEDL lines) := by
  constructor
  · unfold parseEventLine
    rw [hi]
    simp only [hd, if_true, hf, if_pos]
  · intro e he
    have hlen : i < lines.length := by
      by_contra hc
      rw [List.getElem?_eq_none (by omega)] at hi
      cases hi
    exact List.mem_filterMap.mpr ⟨i, List.mem_range.mpr hlen, he⟩

/-- C3 counterexample: this line starts with one or more digits (its
first character is a digit) and has 8 whitespace-separated fields, yet
the parser emits no Edit for the file consisting of just this line,
because the code's pattern `^\d{3,}` requires at least three leading
digits. -/
theorem c3_counterexample :
    ((pyStrip c3_badLine).data.take 1).all Char.isDigit = true ∧
    (pyStrip c3_badLine).data ≠ [] ∧
    8 ≤ (fields (pyStrip c3_badLine)).length ∧
    parseEDL [c3_badLine] = [] := by decide

theorem c3_witness :
    parseEventLine [c3_goodLine, "* FROM CLIP NAME: SHOT A"] 0 =
      some ⟨"001", "A001", "01:00:00:00", "01:00:01:00",
            "01:00:00:00", "01:00:01:00", "SHOT A"⟩ ∧
    (⟨"001", "A001", "01:00:00:00", "01:00:01:00",
      "01:00:00:00", "01:00:01:00", "SHOT A"⟩ : Edit) ∈
      parseEDL [c3_goodLine, "* FROM CLIP NAME: SHOT A"] := by
  obtain ⟨h1, h2⟩ :=
    c3_event_line_parsed [c3_goodLine, "* FROM CLIP NAME: SHOT A"] 0
      c3_goodLine rfl (by decide) (by decide)
  have he : parseEventLine [c3_goodLine, "* FROM CLIP NAME: SHOT A"] 0 =
      some ⟨"001", "A001", "01:00:00:00", "01:00:01:00",
            "01:00:00:00", "01:00:01:00", "SHOT A"⟩ := by
    rw [h1]; decide
  exact ⟨he, h2 _ he⟩

/-! ## C2: per-index classification precedence -/

/-- C2: at every index where both an old and a new edit are present,
the classification follows the precedence order: different reel gives a
NEW record carrying both edit references with the `Clip added`
description; equal reel and equal source in/out gives UNCHANGED with
empty detail; otherwise CHANGED with the trim-detail mapping.  The
record `compare_edls` emits at that index is exactly this
classification. -/
theorem c2_classification (olds news : List Edit) (fps : Int) (i : Nat)
    (o n : Edit) (ho : olds[i]? = some o) (hn : news[i]? = some n) :
    (o.reel ≠ n.reel →
      classifyPair fps olds[i]? news[i]? =
        some ⟨.NEW, some o, some n, [("description", DVal.str "Clip added")]⟩) ∧
    (o.reel = n.reel → o.source_in = n.source_in → o.source_out = n.source_out →
      classifyPair fps olds[i]? news[i]? =
        some ⟨.UNCHANGED, some o, some n, []⟩) ∧
    (o.reel = n.reel → ¬(o.source_in = n.source_in ∧ o.source_out = n.source_out) →
      classifyPair fps olds[i]? news[i]? =
        (compute_trim_details o n fps).map
          (fun d => ⟨.CHANGED, some o, some n, d⟩)) ∧
    (∀ cs, compare_edls olds news fps = some cs →
      cs[i]? = classifyPair fps olds[i]? news[i]?) := by
  refine ⟨?_, ?_, ?_, ?_⟩
  · intro hr; rw [ho, hn]; simp [classifyPair, hr]
  · intro hr h1 h2; rw [ho, hn]; simp [classifyPair, hr, h1, h2]
  · intro hr hne; rw [ho, hn]; simp only [classifyPair]
    rw [if_neg (by simp [hr]), if_neg hne]
  · intro cs hcs
    have hio : i < olds.length := by
      by_contra hc
      rw [List.getElem?_eq_none (by omega)] at ho
      cases ho
    have hi : i < max olds.length news.length := by omega
    obtain ⟨hlen, hidx, _⟩ := traverseOption_some _ _ cs hcs
    exact hidx i i (by simp [List.getElem?_range, hi])

theorem c2_witness :
    classifyPair 24 [wOld][0]? [wNew][0]? =
      (compute_trim_details wOld wNew 24).map
        (fun d => ⟨ChangeType.CHANGED, some wOld, some wNew, d⟩) :=
  (c2_classification [wOld] [wNew] 24 0 wOld wNew rfl rfl).2.2.1 rfl (by decide)

/-! ## C5: one record per index up to the max length -/

theorem compute_trim_details_isSome (o n : Edit) (fps : Int)
    (ho : o.tcOK fps) (hn : n.tcOK fps) :
    (compute_trim_details o n fps).isSome = true := by
  obtain ⟨ho1, ho2, ho3, ho4⟩ := ho
  obtain ⟨hn1, hn2, hn3, hn4⟩ := hn
  obtain ⟨a1, e1⟩ := Option.isSome_iff_exists.mp ho1
  obtain ⟨a2, e2⟩ := Option.isSome_iff_exists.mp ho2
  obtain ⟨a3, e3⟩ := Option.isSome_iff_exists.mp hn1
  obtain ⟨a4, e4⟩ := Option.isSome_iff_exists.mp hn2
  obtain ⟨a5, e5⟩ := Option.isSome_iff_exists.mp ho3
  obtain ⟨a6, e6⟩ := Option.isSome_iff_exists.mp ho4
  obtain ⟨a7, e7⟩ := Option.isSome_iff_exists.mp hn3
  obtain ⟨a8, e8⟩ := Option.isSome_iff_exists.mp hn4
  simp [compute_trim_details, e1, e2, e3, e4, e5, e6, e7, e8]


theorem mem_of_idx {α} {l : List α} {i : Nat} {a : α}
    (h : l[i]? = some a) : a ∈ l := by
  obtain ⟨hlt, rfl⟩ := List.getElem?_eq_some.mp h
  exact List.getElem_mem hlt

theorem classifyPair_isSome (olds news : List Edit) (fps : Int) (i : Nat)
    (hi : i < max olds.length news.length)
    (h1 : ∀ e ∈ olds, e.tcOK fps) (h2 : ∀ e ∈ news, e.tcOK fps) :
    (classifyPair fps olds[i]? news[i]?).isSome = true := by
  cases ho : olds[i]? with
  | none =>
    cases hn : news[i]? with
    | none =>
      exfalso
      rw [List.getElem?_eq_none_iff] at ho hn
      omega
    | some n => simp [classifyPair]
  | some o =>
    cases hn : news[i]? with
    | none => simp [classifyPair]
    | some n =>
      have hom : o ∈ olds := mem_of_idx ho
      have hnm : n ∈ news := mem_of_idx hn
      simp only [classifyPair]
      by_cases hr : o.reel ≠ n.reel
      · simp [hr]
      · rw [if_neg hr]
        by_cases hsrc : o.source_in = n.source_in ∧ o.source_out = n.source_out
        · simp [hsrc]
        · rw [if_neg hsrc]
          simpa [Option.isSome_map] using
            compute_trim_details_isSome o n fps (h1 o hom) (h2 n hnm)

/-- C5: whenever the edits satisfy the data-model invariant (all
timecode fields parse), `compare_edls` returns exactly
`max (len old) (len new)` change records, one per index, in index
order. -/
theorem c5_compare_length (olds news : List Edit) (fps : Int)
    (h1 : ∀ e ∈ olds, e.tcOK fps) (h2 : ∀ e ∈ news, e.tcOK fps) :
    ∃ cs, compare_edls olds news fps = some cs ∧
      cs.length = max olds.length news.length ∧
      ∀ i : Nat, i < max olds.length news.length →
        cs[i]? = classifyPair fps olds[i]? news[i]? := by
  have hall : ∀ a ∈ List.range (max olds.length news.length),
      ((fun i => classifyPair fps olds[i]? news[i]?) a).isSome = true := by
    intro a ha
    exact classifyPair_isSome olds news fps a (List.mem_range.mp ha) h1 h2
  have hs := traverseOption_isSome _ _ hall
  obtain ⟨cs, hcs⟩ := Option.isSome_iff_exists.mp hs
  obtain ⟨hlen, hidx, _⟩ := traverseOption_some _ _ cs hcs
  refine ⟨cs, hcs, by simpa using hlen, ?_⟩
  intro i hi
  exact hidx i i (by simp [List.getElem?_range, hi])

theorem c5_witness :
    ∃ cs, compare_edls [wOld] [wNew] 24 = some cs ∧
      cs.length = max [wOld].length [wNew].length ∧
      ∀ i : Nat, i < max [wOld].length [wNew].length →
        cs[i]? = classifyPair 24 [wOld][i]? [wNew][i]? :=
  c5_compare_length [wOld] [wNew] 24
    (by intro e he
        simp only [List.mem_singleton] at he
        subst he
        exact ⟨rfl, rfl, rfl, rfl⟩)
    (by intro e he
        simp only [List.mem_singleton] at he
        subst he
        exact ⟨rfl, rfl, rfl, rfl⟩)

/-! ## C6: the renderer skips UNCHANGED and DELETED records -/

/-- C6: the renderer writes no output line for any UNCHANGED or DELETED
record (in particular trailing DELETED positions produce no line and no
error), and every line written comes from a NEW or CHANGED record. -/
theorem c6_renderer_skips (changes : List Change) (fps : Int) :
    (∀ c : Change, c.typ = ChangeType.UNCHANGED ∨ c.typ = ChangeType.DELETED →
      renderRecord fps c = none) ∧
    (∀ line ∈ output_change_list changes fps, ∃ c ∈ changes,
      (c.typ = ChangeType.NEW ∨ c.typ = ChangeType.CHANGED) ∧
      renderRecord fps c = some line) := by
  have hnone : ∀ c : Change,
      c.typ = ChangeType.UNCHANGED ∨ c.typ = ChangeType.DELETED →
      renderRecord fps c = none := by
    intro c hc
    rcases hc with h | h <;> simp [renderRecord, h]
  refine ⟨hnone, ?_⟩
  intro line hline
  obtain ⟨c, hc, hr⟩ := List.mem_filterMap.mp hline
  refine ⟨c, hc, ?_, hr⟩
  cases htyp : c.typ with
  | UNCHANGED =>
    rw [hnone c (Or.inl htyp)] at hr
    cases hr
  | DELETED =>
    rw [hnone c (Or.inr htyp)] at hr
    cases hr
  | NEW => exact Or.inl rfl
  | CHANGED => exact Or.inr rfl

theorem c6_witness :
    renderRecord 24 ⟨ChangeType.UNCHANGED, none, none, []⟩ = none ∧
    renderRecord 24 ⟨ChangeType.DELETED, some wOld, none, []⟩ = none :=
  ⟨(c6_renderer_skips [] 24).1 _ (Or.inl rfl),
   (c6_renderer_skips [] 24).1 _ (Or.inr rfl)⟩

/-! ## C7: parse contract of the timecode codec, and abort on error -/

theorem tc_to_frames_none_iff (s : String) (fps : Int) :
    tc_to_frames s fps = none ↔
      ¬((splitColon s.data).length = 4 ∧
        ∀ p ∈ splitColon s.data, (parseIntL p).isSome = true) := by
  cases ht : traverseOption parseIntL (splitColon s.data) with
  | none =>
    have hnone : tc_to_frames s fps = none := by simp [tc_to_frames, ht]
    rw [hnone]
    constructor
    · rintro _ ⟨_, hall⟩
      have hs := traverseOption_isSome parseIntL _ hall
      rw [ht] at hs
      cases hs
    · intro _
      rfl
  | some res =>
    obtain ⟨hlen, _, hall⟩ := traverseOption_some _ _ res ht
    have hlen4 : res.length = (splitColon s.data).length := hlen
    rcases res with _ | ⟨a, _ | ⟨b, _ | ⟨c, _ | ⟨d, _ | ⟨e, rest⟩⟩⟩⟩⟩
    · have hnone : tc_to_frames s fps = none := by simp [tc_to_frames, ht]
      rw [hnone]
      constructor
      · rintro _ ⟨h4, _⟩
        simp at hlen4
        omega
      · intro _
        rfl
    · have hnone : tc_to_frames s fps = none := by simp [tc_to_frames, ht]
      rw [hnone]
      constructor
      · rintro _ ⟨h4, _⟩
        simp at hlen4
        omega
      · intro _
        rfl
    · have hnone : tc_to_frames s fps = none := by simp [tc_to_frames, ht]
      rw [hnone]
      constructor
      · rintro _ ⟨h4, _⟩
        simp at hlen4
        omega
      · intro _
        rfl
    · have hnone : tc_to_frames s fps = none := by simp [tc_to_frames, ht]
      rw [hnone]
      constructor
      · rintro _ ⟨h4, _⟩
        simp at hlen4
        omega
      · intro _
        rfl
    · have hT : (splitColon s.data).length = 4 ∧
          ∀ p ∈ splitColon s.data, (parseIntL p).isSome = true := by
        refine ⟨?_, hall⟩
        simp at hlen4
        omega
      have hsome : tc_to_frames s fps =
          some (((a * 60 + b) * 60 + c) * fps + d) := by
        simp [tc_to_frames, ht]
      rw [hsome]
      constructor
      · intro h
        cases h
      · intro hc
        exact absurd hT hc
    · have hnone : tc_to_frames s fps = none := by simp [tc_to_frames, ht]
      rw [hnone]
      constructor
      · rintro _ ⟨h4, _⟩
        simp at hlen4
        omega
      · intro _
        rfl

/-- C7: `tc_to_frames` fails (raises, modelled as `none`) exactly when
the string does not split on `:` into four numeric components;
otherwise it returns `((h*60+m)*60+s)*fps + f`.  A failing timecode
reached during comparison makes the whole `compare_edls` run fail. -/
theorem c7_tc_contract (s : String) (fps : Int) :
    (tc_to_frames s fps = none ↔
      ¬((splitColon s.data).length = 4 ∧
        ∀ p ∈ splitColon s.data, (parseIntL p).isSome = true)) ∧
    (∀ h m s4 f : Int,
      traverseOption parseIntL (splitColon s.data) = some [h, m, s4, f] →
      tc_to_frames s fps = some (((h * 60 + m) * 60 + s4) * fps + f)) ∧
    (∀ (olds news : List Edit) (i : Nat) (o n : Edit),
      olds[i]? = some o → news[i]? = some n →
      classifyPair fps (some o) (some n) = none →
      compare_edls olds news fps = none) ∧
    (∀ o n : Edit, o.reel = n.reel →
      ¬(o.source_in = n.source_in ∧ o.source_out = n.source_out) →
      tc_to_frames o.source_in fps = none →
      classifyPair fps (some o) (some n) = none) := by
  refine ⟨tc_to_frames_none_iff s fps, ?_, ?_, ?_⟩
  · intro h m s4 f ht
    simp [tc_to_frames, ht]
  · intro olds news i o n ho hn hcl
    have hio : i < olds.length := by
      by_contra hc
      rw [List.getElem?_eq_none (by omega)] at ho
      cases ho
    have hi : i < max olds.length news.length := by omega
    have hnone : classifyPair fps olds[i]? news[i]? = none := by
      rw [ho, hn]; exact hcl
    exact traverseOption_none _ _ i i
      (by simp [List.getElem?_range, hi]) hnone
  · intro o n hr hne hbad
    simp only [classifyPair]
    rw [if_neg (by simp [hr]), if_neg hne]
    have hc : compute_trim_details o n fps = none := by
      simp [compute_trim_details, hbad]
    simp [hc]

theorem c7_witness :
    tc_to_frames "aa:bb:cc:dd" 24 = none ∧
    compare_edls [w7o] [w7n] 24 = none := by
  constructor
  · exact (c7_tc_contract "aa:bb:cc:dd" 24).1.mpr (by decide)
  · exact (c7_tc_contract "" 24).2.2.1 [w7o] [w7n] 0 w7o w7n rfl rfl
      ((c7_tc_contract "" 24).2.2.2 w7o w7n rfl (by decide) (by decide))

/-! ## Decimal representation and timecode round-trip machinery -/

theorem natReprAux_congr : ∀ (n fuel fuel2 : Nat), n < fuel → n < fuel2 →
    natReprAux fuel n = natReprAux fuel2 n := by
  intro n
  induction n using Nat.strong_induction_on with
  | _ n ih =>
    intro fuel fuel2 hf hf2
    cases fuel with
    | zero => omega
    | succ f =>
      cases fuel2 with
      | zero => omega
      | succ f2 =>
        by_cases h : n < 10
        · simp [natReprAux, h]
        · simp only [natReprAux, if_neg h]
          rw [ih (n / 10) (Nat.div_lt_self (by omega) (by omega)) f f2
            (by
              have := Nat.div_lt_self (show 0 < n by omega) (show 1 < 10 by omega)
              omega)
            (by
              have := Nat.div_lt_self (show 0 < n by omega) (show 1 < 10 by omega)
              omega)]

theorem natRepr_eq (n : Nat) : natRepr n =
    if n < 10 then [Nat.digitChar n]
    else natRepr (n / 10) ++ [Nat.digitChar (n % 10)] := by
  by_cases h : n < 10
  · simp [natRepr, natReprAux, h]
  · simp only [natRepr, natReprAux, if_neg h]
    rw [natReprAux_congr (n / 10) n (n / 10 + 1)
      (by
        have := Nat.div_lt_self (show 0 < n by omega) (show 1 < 10 by omega)
        omega)
      (by omega)]
    rfl

theorem digitChar_isDigit {d : Nat} (h : d < 10) :
    (Nat.digitChar d).isDigit = true := by
  interval_cases d <;> decide

theorem charVal_digitChar {d : Nat} (h : d < 10) :
    charVal (Nat.digitChar d) = d := by
  interval_cases d <;> decide

theorem natRepr_all_digit (n : Nat) : (natRepr n).all Char.isDigit = true := by
  induction n using Nat.strong_induction_on with
  | _ n ih =>
    rw [natRepr_eq]
    split
    · rename_i h
      simp [digitChar_isDigit h]
    · rename_i h
      have h1 := ih (n / 10) (Nat.div_lt_self (by omega) (by omega))
      have h2 : (Nat.digitChar (n % 10)).isDigit = true :=
        digitChar_isDigit (Nat.mod_lt _ (by omega))
      simp [List.all_append, h1, h2]

theorem natRepr_ne_nil (n : Nat) : natRepr n ≠ [] := by
  rw [natRepr_eq]
  split <;> simp

theorem digitsToNat_append_digit (l : List Char) (c : Char) :
    digitsToNat (l ++ [c]) = 10 * digitsToNat l + charVal c := by
  simp [digitsToNat, List.foldl_append]

theorem digitsToNat_natRepr (n : Nat) : digitsToNat (natRepr n) = n := by
  induction n using Nat.strong_induction_on with
  | _ n ih =>
    rw [natRepr_eq]
    split
    · rename_i h
      simp [digitsToNat, charVal_digitChar h]
    · rename_i h
      rw [digitsToNat_append_digit,
          ih (n / 10) (Nat.div_lt_self (by omega) (by omega)),
          charVal_digitChar (Nat.mod_lt _ (by omega))]
      omega

theorem digit_ne {c : Char} (h : c.isDigit = true) :
    c ≠ ':' ∧ c ≠ '-' ∧ c ≠ '+' := by
  refine ⟨?_, ?_, ?_⟩ <;>
    { intro hc
      subst hc
      exact absurd h (by decide) }

theorem parseIntL_digits (l : List Char) (hne : l ≠ [])
    (hd : l.all Char.isDigit = true) :
    parseIntL l = some ((digitsToNat l : Nat) : Int) := by
  unfold parseIntL
  rw [if_neg hne]
  obtain ⟨c, cs, rfl⟩ : ∃ c cs, l = c :: cs := by
    cases l with
    | nil => exact absurd rfl hne
    | cons c cs => exact ⟨c, cs, rfl⟩
  have hc : c.isDigit = true := by
    simp [List.all_cons] at hd
    exact hd.1
  simp only [List.head!_cons]
  rw [if_neg (digit_ne hc).2.1, if_neg (digit_ne hc).2.2, if_pos hd]

theorem intReprL_coe (n : Nat) : intReprL (n : Int) = natRepr n := by
  unfold intReprL
  rw [if_neg (by omega)]
  congr 1

theorem intPad2L_coe (n : Nat) : intPad2L (n : Int) =
    if n < 10 then '0' :: natRepr n else natRepr n := by
  unfold intPad2L
  rw [intReprL_coe]
  by_cases h : n < 10
  · rw [if_pos (by omega : (0:Int) ≤ (n:Int) ∧ (n:Int) < 10), if_pos h]
  · rw [if_neg (by omega : ¬((0:Int) ≤ (n:Int) ∧ (n:Int) < 10)), if_neg h]

theorem parseIntL_pad2 (n : Nat) :
    parseIntL (intPad2L (n : Int)) = some (n : Int) := by
  rw [intPad2L_coe]
  by_cases h : n < 10
  · rw [if_pos h]
    have h0 : ('0' : Char).isDigit = true := by decide
    rw [parseIntL_digits _ (by simp) (by simp [List.all_cons, h0, natRepr_all_digit n])]
    have h00 : digitsToNat ('0' :: natRepr n) = digitsToNat (natRepr n) := by
      have hz : charVal '0' = 0 := by decide
      simp [digitsToNat, List.foldl_cons, hz]
    rw [h00, digitsToNat_natRepr]
  · rw [if_neg h]
    rw [parseIntL_digits _ (natRepr_ne_nil n) (natRepr_all_digit n),
        digitsToNat_natRepr]

theorem pad2_no_colon (n : Nat) : ∀ c ∈ intPad2L (n : Int), c ≠ ':' := by
  intro c hc
  rw [intPad2L_coe] at hc
  have hdig : c.isDigit = true := by
    by_cases h : n < 10
    · rw [if_pos h] at hc
      rcases List.mem_cons.mp hc with h0 | hm
      · subst h0
        decide
      · exact List.all_eq_true.mp (natRepr_all_digit n) c hm
    · rw [if_neg h] at hc
      exact List.all_eq_true.mp (natRepr_all_digit n) c hc
  exact (digit_ne hdig).1

theorem splitColon_no (a : List Char) (ha : ∀ c ∈ a, c ≠ ':') :
    splitColon a = [a] := by
  induction a with
  | nil => rfl
  | cons c cs ih =>
    have hc : c ≠ ':' := ha c (by simp)
    have ih2 := ih (fun x hx => ha x (by simp [hx]))
    simp only [splitColon, if_neg hc]
    rw [ih2]

theorem splitColon_append (a b : List Char) (ha : ∀ c ∈ a, c ≠ ':') :
    splitColon (a ++ ':' :: b) = a :: splitColon b := by
  induction a with
  | nil => simp [splitColon]
  | cons c cs ih =>
    have hc : c ≠ ':' := ha c (by simp)
    have ih2 := ih (fun x hx => ha x (by simp [hx]))
    simp only [List.cons_append, List.append_eq, splitColon, if_neg hc]
    rw [ih2]

theorem splitColon_mkTC (h m s f : Nat) :
    splitColon (mkTC (h : Int) (m : Int) (s : Int) (f : Int)).data =
      [intPad2L (h : Int), intPad2L (m : Int),
       intPad2L (s : Int), intPad2L (f : Int)] := by
  have hdata : (mkTC (h : Int) (m : Int) (s : Int) (f : Int)).data =
      intPad2L (h : Int) ++ ':' :: (intPad2L (m : Int) ++
        ':' :: (intPad2L (s : Int) ++ ':' :: intPad2L (f : Int))) := rfl
  rw [hdata,
      splitColon_append _ _ (pad2_no_colon h),
      splitColon_append _ _ (pad2_no_colon m),
      splitColon_append _ _ (pad2_no_colon s),
      splitColon_no _ (pad2_no_colon f)]

theorem tc_to_frames_mkTC (a b c d : Nat) (fps : Int) :
    tc_to_frames (mkTC (a : Int) (b : Int) (c : Int) (d : Int)) fps =
      some ((((a : Int) * 60 + b) * 60 + c) * fps + d) := by
  unfold tc_to_frames
  rw [splitColon_mkTC]
  simp [traverseOption, parseIntL_pad2]

theorem fdiv_coe (a b : Nat) :
    Int.fdiv (a : Int) (b : Int) = ((a / b : Nat) : Int) :=
  (Int.ofNat_fdiv a b).symm

theorem fmod_coe (a b : Nat) :
    Int.fmod (a : Int) (b : Int) = ((a % b : Nat) : Int) :=
  (Int.ofNat_fmod a b).symm

theorem frames_to_tc_coe (n k : Nat) :
    frames_to_tc (n : Int) (k : Int) =
      mkTC (↑(n / (3600 * k))) (↑(n % (3600 * k) / (60 * k)))
           (↑(n % (3600 * k) % (60 * k) / k))
           (↑(n % (3600 * k) % (60 * k) % k)) := by
  have h1 : (60 * 60 * (k : Int)) = ((3600 * k : Nat) : Int) := by
    push_cast
    ring
  have h2 : (60 * (k : Int)) = ((60 * k : Nat) : Int) := by
    push_cast
    ring
  simp only [frames_to_tc, h1, h2, fmod_coe, fdiv_coe]

theorem div_mod_split (q b r : Nat) (hb : 0 < b) (hr : r < b) :
    (q * b + r) / b = q ∧ (q * b + r) % b = r := by
  constructor
  · calc (q * b + r) / b = (r + b * q) / b := by ring_nf
      _ = r / b + q := Nat.add_mul_div_left r q hb
      _ = q := by rw [Nat.div_eq_of_lt hr]; omega
  · calc (q * b + r) % b = (r + b * q) % b := by ring_nf
      _ = r % b := Nat.add_mul_mod_self_left r b q
      _ = r := Nat.mod_eq_of_lt hr

/-! ## C9: frames -> timecode -> frames round-trip -/

/-- C9: for every frame count `frames >= 0` and every `fps >= 1`,
converting to a timecode string with `frames_to_tc` and parsing it back
with `tc_to_frames` returns the original count. -/
theorem c9_frames_roundtrip (frames fps : Int) (h0 : 0 ≤ frames)
    (h1 : 1 ≤ fps) :
    tc_to_frames (frames_to_tc frames fps) fps = some frames := by
  obtain ⟨n, rfl⟩ := Int.eq_ofNat_of_zero_le h0
  obtain ⟨k, rfl⟩ := Int.eq_ofNat_of_zero_le (le_trans (by norm_num) h1)
  rw [frames_to_tc_coe, tc_to_frames_mkTC]
  have e1 := Nat.div_add_mod n (3600 * k)
  have e2 := Nat.div_add_mod (n % (3600 * k)) (60 * k)
  have e3 := Nat.div_add_mod (n % (3600 * k) % (60 * k)) k
  have key : ((n / (3600 * k) * 60 + n % (3600 * k) / (60 * k)) * 60 +
      n % (3600 * k) % (60 * k) / k) * k + n % (3600 * k) % (60 * k) % k = n := by
    calc ((n / (3600 * k) * 60 + n % (3600 * k) / (60 * k)) * 60 +
          n % (3600 * k) % (60 * k) / k) * k + n % (3600 * k) % (60 * k) % k
        = 3600 * k * (n / (3600 * k)) +
          (60 * k * (n % (3600 * k) / (60 * k)) +
           (k * (n % (3600 * k) % (60 * k) / k) +
            n % (3600 * k) % (60 * k) % k)) := by ring
      _ = 3600 * k * (n / (3600 * k)) +
          (60 * k * (n % (3600 * k) / (60 * k)) +
           n % (3600 * k) % (60 * k)) := by rw [e3]
      _ = 3600 * k * (n / (3600 * k)) + n % (3600 * k) := by rw [e2]
      _ = n := e1
  have hcast : (((↑(n / (3600 * k)) : Int) * 60 + ↑(n % (3600 * k) / (60 * k))) * 60 +
        ↑(n % (3600 * k) % (60 * k) / k)) * (↑k : Int) +
        ↑(n % (3600 * k) % (60 * k) % k) =
      ((((n / (3600 * k) * 60 + n % (3600 * k) / (60 * k)) * 60 +
        n % (3600 * k) % (60 * k) / k) * k +
        n % (3600 * k) % (60 * k) % k : Nat) : Int) := by
    push_cast
    ring
  rw [hcast, key]

theorem c9_witness :
    tc_to_frames (frames_to_tc 100 24) 24 = some 100 :=
  c9_frames_roundtrip 100 24 (by norm_num) (by norm_num)

/-! ## C4: timecode -> frames -> timecode round-trip -/

/-- C4: for every valid `HH:MM:SS:FF` timecode (two-digit fields,
minutes and seconds below 60) whose frame component is below `fps`,
parsing to frames and converting back is the identity. -/
theorem c4_roundtrip (fps : Int) (h m s f : Nat)
    (_hh : h ≤ 99) (hm : m ≤ 59) (hs : s ≤ 59) (_hf99 : f ≤ 99)
    (hf : (f : Int) < fps) :
    ∃ n : Int,
      tc_to_frames (mkTC (h : Int) (m : Int) (s : Int) (f : Int)) fps = some n ∧
      frames_to_tc n fps = mkTC (h : Int) (m : Int) (s : Int) (f : Int) := by
  obtain ⟨k, rfl⟩ := Int.eq_ofNat_of_zero_le
    (le_trans (Int.natCast_nonneg f) hf.le)
  have hk : 0 < k := by exact_mod_cast lt_of_le_of_lt (Int.natCast_nonneg f) hf
  have hfk : f < k := by exact_mod_cast hf
  refine ⟨_, tc_to_frames_mkTC h m s f (↑k), ?_⟩
  have hc : (((h : Int) * 60 + m) * 60 + s) * (k : Int) + f =
      ((((h * 60 + m) * 60 + s) * k + f : Nat) : Int) := by
    push_cast
    ring
  rw [hc, frames_to_tc_coe]
  have hN1 : ((h * 60 + m) * 60 + s) * k + f =
      h * (3600 * k) + ((m * 60 + s) * k + f) := by ring
  have hr1 : (m * 60 + s) * k + f < 3600 * k := by
    calc (m * 60 + s) * k + f < (m * 60 + s) * k + k := by omega
      _ = (m * 60 + s + 1) * k := by ring
      _ ≤ 3600 * k := Nat.mul_le_mul_right k (by omega)
  have hr2 : s * k + f < 60 * k := by
    calc s * k + f < s * k + k := by omega
      _ = (s + 1) * k := by ring
      _ ≤ 60 * k := Nat.mul_le_mul_right k (by omega)
  have hN2 : (m * 60 + s) * k + f = m * (60 * k) + (s * k + f) := by ring
  have e1 := div_mod_split h (3600 * k) ((m * 60 + s) * k + f) (by omega) hr1
  have e2 := div_mod_split m (60 * k) (s * k + f) (by omega) hr2
  have e3 := div_mod_split s k f hk hfk
  have c1 : (((h * 60 + m) * 60 + s) * k + f) / (3600 * k) = h := by
    rw [hN1]
    exact e1.1
  have c1m : (((h * 60 + m) * 60 + s) * k + f) % (3600 * k) =
      (m * 60 + s) * k + f := by
    rw [hN1]
    exact e1.2
  have c2 : (((h * 60 + m) * 60 + s) * k + f) % (3600 * k) / (60 * k) = m := by
    rw [c1m, hN2]
    exact e2.1
  have c2m : (((h * 60 + m) * 60 + s) * k + f) % (3600 * k) % (60 * k) =
      s * k + f := by
    rw [c1m, hN2]
    exact e2.2
  have c3 : (((h * 60 + m) * 60 + s) * k + f) % (3600 * k) % (60 * k) / k = s := by
    rw [c2m]
    exact e3.1
  have c3m : (((h * 60 + m) * 60 + s) * k + f) % (3600 * k) % (60 * k) % k = f := by
    rw [c2m]
    exact e3.2
  rw [c1, c2, c3, c3m]

theorem c4_witness :
    ∃ n : Int,
      tc_to_frames (mkTC ((1 : Nat) : Int) ((2 : Nat) : Int)
        ((3 : Nat) : Int) ((4 : Nat) : Int)) 24 = some n ∧
      frames_to_tc n 24 = mkTC ((1 : Nat) : Int) ((2 : Nat) : Int)
        ((3 : Nat) : Int) ((4 : Nat) : Int) :=
  c4_roundtrip 24 1 2 3 4 (by norm_num) (by norm_num) (by norm_num)
    (by norm_num) (by norm_num)

/-! ## C8: a CHANGED record always carries a head or tail change -/

theorem canon_tc_inj (a b : String) (fps : Int)
    (ha : isCanonTC a fps) (hb : isCanonTC b fps)
    (hfr : tc_to_frames a fps = tc_to_frames b fps) : a = b := by
  obtain ⟨h1, m1, s1, f1, hm1, hs1, hf1, rfl⟩ := ha
  obtain ⟨h2, m2, s2, f2, hm2, hs2, hf2, rfl⟩ := hb
  obtain ⟨k, rfl⟩ := Int.eq_ofNat_of_zero_le
    (le_trans (Int.natCast_nonneg f1) hf1.le)
  have hk : 0 < k := by exact_mod_cast lt_of_le_of_lt (Int.natCast_nonneg f1) hf1
  have hf1k : f1 < k := by exact_mod_cast hf1
  have hf2k : f2 < k := by exact_mod_cast hf2
  rw [tc_to_frames_mkTC, tc_to_frames_mkTC, Option.some_inj] at hfr
  have hnat : ((h1 * 60 + m1) * 60 + s1) * k + f1 =
      ((h2 * 60 + m2) * 60 + s2) * k + f2 := by exact_mod_cast hfr
  have e1 := div_mod_split ((h1 * 60 + m1) * 60 + s1) k f1 hk hf1k
  have e2 := div_mod_split ((h2 * 60 + m2) * 60 + s2) k f2 hk hf2k
  have hA : (h1 * 60 + m1) * 60 + s1 = (h2 * 60 + m2) * 60 + s2 :=
    calc (h1 * 60 + m1) * 60 + s1
        = (((h1 * 60 + m1) * 60 + s1) * k + f1) / k := e1.1.symm
      _ = (((h2 * 60 + m2) * 60 + s2) * k + f2) / k := by rw [hnat]
      _ = (h2 * 60 + m2) * 60 + s2 := e2.1
  have hF : f1 = f2 :=
    calc f1 = (((h1 * 60 + m1) * 60 + s1) * k + f1) % k := e1.2.symm
      _ = (((h2 * 60 + m2) * 60 + s2) * k + f2) % k := by rw [hnat]
      _ = f2 := e2.2
  have hcomp : h1 = h2 ∧ m1 = m2 ∧ s1 = s2 := ⟨by omega, by omega, by omega⟩
  obtain ⟨rfl, rfl, rfl⟩ := hcomp
  rw [hF]

theorem compute_trim_lookup (o n : Edit) (fps : Int) (d : Details)
    (h : compute_trim_details o n fps = some d)
    (oi ni oo no : Int)
    (hoi : tc_to_frames o.source_in fps = some oi)
    (hni : tc_to_frames n.source_in fps = some ni)
    (hoo : tc_to_frames o.source_out fps = some oo)
    (hno : tc_to_frames n.source_out fps = some no) :
    (ni ≠ oi → (d.lookup "head_change").isSome = true) ∧
    (no ≠ oo → (d.lookup "tail_change").isSome = true) := by
  obtain ⟨a5, h5⟩ : ∃ a5, tc_to_frames o.record_in fps = some a5 := by
    cases hx : tc_to_frames o.record_in fps with
    | none =>
      exfalso
      simp [compute_trim_details, hoi, hoo, hni, hno, hx] at h
    | some a => exact ⟨a, rfl⟩
  obtain ⟨a6, h6⟩ : ∃ a6, tc_to_frames o.record_out fps = some a6 := by
    cases hx : tc_to_frames o.record_out fps with
    | none =>
      exfalso
      simp [compute_trim_details, hoi, hoo, hni, hno, h5, hx] at h
    | some a => exact ⟨a, rfl⟩
  obtain ⟨a7, h7⟩ : ∃ a7, tc_to_frames n.record_in fps = some a7 := by
    cases hx : tc_to_frames n.record_in fps with
    | none =>
      exfalso
      simp [compute_trim_details, hoi, hoo, hni, hno, h5, h6, hx] at h
    | some a => exact ⟨a, rfl⟩
  obtain ⟨a8, h8⟩ : ∃ a8, tc_to_frames n.record_out fps = some a8 := by
    cases hx : tc_to_frames n.record_out fps with
    | none =>
      exfalso
      simp [compute_trim_details, hoi, hoo, hni, hno, h5, h6, h7, hx] at h
    | some a => exact ⟨a, rfl⟩
  unfold compute_trim_details at h
  rw [hoi, hoo, hni, hno, h5, h6, h7, h8] at h
  have hd := Option.some_inj.mp h
  subst hd
  constructor
  · intro hne
    have hsign : ni - oi < 0 ∨ 0 < ni - oi := by omega
    rcases hsign with hlt | hgt
    · rw [if_pos hlt]
      rfl
    · rw [if_neg (by omega : ¬(ni - oi < 0)), if_pos hgt]
      rfl
  · intro hne
    have hsign : no - oo < 0 ∨ 0 < no - oo := by omega
    by_cases hl : ni - oi < 0
    · rw [if_pos hl]
      rcases hsign with hlt | hgt
      · rw [if_neg (by omega : ¬(0 < no - oo)), if_pos hlt]
        rfl
      · rw [if_pos hgt]
        rfl
    · rw [if_neg hl]
      by_cases hg : 0 < ni - oi
      · rw [if_pos hg]
        rcases hsign with hlt | hgt
        · rw [if_neg (by omega : ¬(0 < no - oo)), if_pos hlt]
          rfl
        · rw [if_pos hgt]
          rfl
      · rw [if_neg hg]
        rcases hsign with hlt | hgt
        · rw [if_neg (by omega : ¬(0 < no - oo)), if_pos hlt]
          rfl
        · rw [if_pos hgt]
          rfl

theorem classifyPair_changed (fps : Int) (o? n? : Option Edit) (r : Change)
    (h : classifyPair fps o? n? = some r) (ht : r.typ = ChangeType.CHANGED) :
    ∃ oe ne dd, o? = some oe ∧ n? = some ne ∧
      r = ⟨.CHANGED, some oe, some ne, dd⟩ ∧
      oe.reel = ne.reel ∧
      ¬(oe.source_in = ne.source_in ∧ oe.source_out = ne.source_out) ∧
      compute_trim_details oe ne fps = some dd := by
  cases o? with
  | none =>
    cases n? with
    | none => simp [classifyPair] at h
    | some ne =>
      simp only [classifyPair] at h
      have := Option.some_inj.mp h
      subst this
      cases ht
  | some oe =>
    cases n? with
    | none =>
      simp only [classifyPair] at h
      have := Option.some_inj.mp h
      subst this
      cases ht
    | some ne =>
      simp only [classifyPair] at h
      by_cases hr : oe.reel ≠ ne.reel
      · rw [if_pos hr] at h
        have := Option.some_inj.mp h
        subst this
        cases ht
      · rw [if_neg hr] at h
        by_cases hs : oe.source_in = ne.source_in ∧ oe.source_out = ne.source_out
        · rw [if_pos hs] at h
          have := Option.some_inj.mp h
          subst this
          cases ht
        · rw [if_neg hs] at h
          cases hc : compute_trim_details oe ne fps with
          | none =>
            rw [hc] at h
            simp at h
          | some dd =>
            rw [hc] at h
            have hrr := Option.some_inj.mp h
            exact ⟨oe, ne, dd, rfl, rfl, hrr.symm, not_not.mp hr, hs, hc⟩

/-- C8: every record that `compare_edls` classifies as CHANGED carries
at least one of `head_change` / `tail_change` in its detail mapping,
provided the four source timecodes of the old and new edit are
well-formed `HH:MM:SS:FF` with minutes below 60, seconds below 60 and
frames below fps. -/
theorem c8_changed_has_head_or_tail (olds news : List Edit) (fps : Int)
    (i : Nat) (cs : List Change) (o n : Edit) (d : Details)
    (hcs : compare_edls olds news fps = some cs)
    (hrec : cs[i]? = some ⟨ChangeType.CHANGED, some o, some n, d⟩)
    (c1 : isCanonTC o.source_in fps) (c2 : isCanonTC o.source_out fps)
    (c3 : isCanonTC n.source_in fps) (c4 : isCanonTC n.source_out fps) :
    (d.lookup "head_change").isSome = true ∨
    (d.lookup "tail_change").isSome = true := by
  obtain ⟨hlen, hidx, _⟩ := traverseOption_some _ _ cs hcs
  have hi : i < max olds.length news.length := by
    have hic : i < cs.length := by
      by_contra hc
      rw [List.getElem?_eq_none (by omega)] at hrec
      cases hrec
    rw [hlen, List.length_range] at hic
    exact hic
  have hclass : classifyPair fps olds[i]? news[i]? =
      some ⟨.CHANGED, some o, some n, d⟩ := by
    rw [← hidx i i (by simp [List.getElem?_range, hi])]
    exact hrec
  obtain ⟨oe, ne, dd, hoe, hne, hreq, hreel, hsrc, hcomp⟩ :=
    classifyPair_changed fps olds[i]? news[i]? _ hclass rfl
  have heq : o = oe ∧ n = ne ∧ d = dd := by
    have := hreq
    simp only [Change.mk.injEq, Option.some_inj] at this
    exact ⟨this.2.1, this.2.2.1, this.2.2.2⟩
  obtain ⟨rfl, rfl, rfl⟩ := heq
  obtain ⟨oi, hoi⟩ : ∃ v, tc_to_frames o.source_in fps = some v := by
    obtain ⟨a, b, c, e, _, _, _, hstr⟩ := c1
    rw [hstr, tc_to_frames_mkTC]
    exact ⟨_, rfl⟩
  obtain ⟨oo, hoo⟩ : ∃ v, tc_to_frames o.source_out fps = some v := by
    obtain ⟨a, b, c, e, _, _, _, hstr⟩ := c2
    rw [hstr, tc_to_frames_mkTC]
    exact ⟨_, rfl⟩
  obtain ⟨ni, hni⟩ : ∃ v, tc_to_frames n.source_in fps = some v := by
    obtain ⟨a, b, c, e, _, _, _, hstr⟩ := c3
    rw [hstr, tc_to_frames_mkTC]
    exact ⟨_, rfl⟩
  obtain ⟨no, hno⟩ : ∃ v, tc_to_frames n.source_out fps = some v := by
    obtain ⟨a, b, c, e, _, _, _, hstr⟩ := c4
    rw [hstr, tc_to_frames_mkTC]
    exact ⟨_, rfl⟩
  have hlook := compute_trim_lookup o n fps d hcomp oi ni oo no hoi hni hoo hno
  rcases not_and_or.mp hsrc with hin | hout
  · left
    apply hlook.1
    intro hfeq
    exact hin (canon_tc_inj _ _ fps c1 c3 (by rw [hoi, hni, hfeq]))
  · right
    apply hlook.2
    intro hfeq
    exact hout (canon_tc_inj _ _ fps c2 c4 (by rw [hoo, hno, hfeq]))

theorem c8_witness :
    (w8d.lookup "head_change").isSome = true ∨
    (w8d.lookup "tail_change").isSome = true :=
  c8_changed_has_head_or_tail [wOld] [wNew] 24 0
    [⟨ChangeType.CHANGED, some wOld, some wNew, w8d⟩] wOld wNew w8d
    (by decide) rfl
    ⟨1, 0, 0, 0, by norm_num, by norm_num, by norm_num, by decide⟩
    ⟨1, 0, 5, 0, by norm_num, by norm_num, by norm_num, by decide⟩
    ⟨1, 0, 1, 0, by norm_num, by norm_num, by norm_num, by decide⟩
    ⟨1, 0, 5, 0, by norm_num, by norm_num, by norm_num, by decide⟩

/-! ## C1: the spec's Example 2 against the code -/

/-- C1 counterexample: on Example 2's inputs at 24 fps the code
computes `time_diff_frames = 0`, not `-48` — `time_diff` is the change
in RECORD duration (spec section 4.3), and the record times are
unchanged — so the rendered line opens with the `No time difference`
wording, not the claimed `Time difference -48 frames` prefix. -/
theorem c1_counterexample :
    (compute_trim_details c1_old c1_new 24).map
      (List.lookup "time_diff_frames") = some (some (DVal.int 0)) ∧
    (compare_edls [c1_old] [c1_new] 24).map
      (fun cs => output_change_list cs 24) = some [c1_line] ∧
    strStarts c1_line
      "Changed\t01:00:00:00\tTC\tyellow\tTime difference -48 frames  [-48 frames]. HEAD trimmed from 01:00:00:00 to 01:00:02:00." =
      false := by
  refine ⟨by decide, by decide, by decide⟩

/-- C1 (amended): for Example 2's inputs at 24 fps, compare classifies
the position as CHANGED with `head_change = "trimmed"` and
`time_diff_frames = 0`, and the rendered output line starts with
`Changed<TAB>01:00:00:00<TAB>TC<TAB>yellow<TAB>No time difference.
Shifted within itself.  HEAD trimmed from 01:00:00:00 to
01:00:02:00.` -/
theorem c1_amended :
    compare_edls [c1_old] [c1_new] 24 =
      some [⟨ChangeType.CHANGED, some c1_old, some c1_new, c1_details⟩] ∧
    c1_details.lookup "head_change" = some (DVal.str "trimmed") ∧
    c1_details.lookup "time_diff_frames" = some (DVal.int 0) ∧
    output_change_list
      [⟨ChangeType.CHANGED, some c1_old, some c1_new, c1_details⟩] 24 =
      [c1_line] ∧
    strStarts c1_line
      "Changed\t01:00:00:00\tTC\tyellow\tNo time difference. Shifted within itself.  HEAD trimmed from 01:00:00:00 to 01:00:02:00." =
      true := by
  refine ⟨by decide, by decide, by decide, by decide, by decide⟩
